import Mathlib

/-!
Verification of the MikroTik bridge-filter manager (`mikrotik/mikrotik.py`,
`mikrotik/routers.py`) against its natural-language specification.

The device driver (`MikroTikRouter`) is modelled as pure functions over a
snapshot of the device's bridge-filter rule list.  A wire item
(one record of `/interface/bridge/filter/print`) becomes `Item`; the rows
produced by `_get_total_statistics` become `FilterData`.  Loops of the form
`for index, x in enumerate(l)` are embedded as the index-collecting
recursion `loopIndices`.  Mutation commands sent with `talk` are returned
as data (indices / command lists) instead of being executed, and the
device-side effect of a command, where a claim needs it, is applied to the
modelled rule list explicitly.  Calls into external libraries
(`ipaddress.ip_address`, `chardet.detect`) are taken as oracle parameters.
-/

namespace Mikrotik

/-- Python `str.upper()` restricted to the alphabet that occurs here
(MAC addresses, SRC/DST): per-character uppercasing, over the string's
character list. -/
def pyUpper (s : String) : String := ⟨s.data.map Char.toUpper⟩

/-- Python `str.lower()`: per-character lowercasing. -/
def pyLower (s : String) : String := ⟨s.data.map Char.toLower⟩

/-- Python `s.split("/")[0]`: the characters before the first slash
(the whole string when no slash occurs). -/
def splitSlashHead (s : String) : String := ⟨s.data.takeWhile (fun c => !(c == '/'))⟩

/-- One raw rule record returned by `/interface/bridge/filter/print`.
Absent dictionary fields are `none` (for the MAC fields) or the `.get`
defaults `""` (for `action`, `disabled`, `comment`), as read in
`_get_total_statistics` and `_get_mac_and_target`. -/
structure Item where
  action : String := ""
  disabled : String := ""
  comment : String := ""
  srcMac : Option String := none
  dstMac : Option String := none
deriving DecidableEq, Repr

/-- The `{"mac": ..., "target": ...}` pair computed by
`MikroTikRouter._get_mac_and_target`. -/
structure MacTarget where
  mac : String
  target : String
deriving DecidableEq, Repr

/-- One row of the list built by `MikroTikRouter._get_total_statistics`:
`{"action": ..., "disabled": ..., "comment": ..., "mac": ..., "target": ...}`. -/
structure FilterData where
  action : String
  disabled : String
  comment : String
  mac : String
  target : String
deriving DecidableEq, Repr

/-- Embedding of `for index, x in enumerate(l)` bodies that collect
`index` for the elements satisfying `p`; `i` is the running counter. -/
def loopIndices (p : α → Bool) : Nat → List α → List Nat
  | _, [] => []
  | i, x :: rest =>
    if p x then i :: loopIndices p (i + 1) rest else loopIndices p (i + 1) rest

/-- UTF-8 encoding of one character: the byte list Python's
`str.encode()` produces for it. -/
def utf8Bytes (c : Char) : List Nat :=
  let n := c.toNat
  if n < 128 then [n]
  else if n < 2048 then [192 + n / 64, 128 + n % 64]
  else if n < 65536 then [224 + n / 4096, 128 + (n / 64) % 64, 128 + n % 64]
  else [240 + n / 262144, 128 + (n / 4096) % 64, 128 + (n / 64) % 64, 128 + n % 64]

/-- Python `raw_text.encode()`: the UTF-8 bytes of the string. -/
def strBytes (s : String) : List Nat := (s.data.map utf8Bytes).flatten

/-- Lower-case hexadecimal digit, as used by Python's `\xHH` byte
escapes in `repr(bytes)`. -/
def hexDigit (n : Nat) : Char :=
  if n < 10 then Char.ofNat (48 + n) else Char.ofNat (87 + n)

/-- How `repr(bytes)` renders one byte, given the quote character the
repr chose: backslash and the quote are escaped, `\t`/`\n`/`\r` use
their short escapes, other printable ASCII is kept literally, and
everything else becomes `\xHH` with lower-case hex. -/
def reprByte (quote : Char) (b : Nat) : List Char :=
  if b = 92 then ['\\', '\\']
  else if b = quote.toNat then ['\\', quote]
  else if b = 9 then ['\\', 't']
  else if b = 10 then ['\\', 'n']
  else if b = 13 then ['\\', 'r']
  else if 32 ≤ b ∧ b < 127 then [Char.ofNat b]
  else ['\\', 'x', hexDigit (b / 16), hexDigit (b % 16)]

/-- The quote `repr(bytes)` picks: a single quote, unless the bytes
contain a single quote and no double quote, in which case a double
quote (and then an unescaped double quote never appears; with the
default single quote, contained double quotes stay unescaped). -/
def chooseQuote (bs : List Nat) : Char :=
  if bs.contains 39 ∧ ¬ bs.contains 34 then '"' else '\''

namespace MikroTikRouter

/-- `MikroTikRouter._get_mac_and_target`: `src-mac-address` takes
precedence, the MAC is truncated at the first `/` and uppercased; a rule
with neither MAC field yields the empty MAC and empty target. -/
def get_mac_and_target (item : Item) : MacTarget :=
  match item.srcMac with
  | some srcMac => { mac := pyUpper (splitSlashHead srcMac), target := "SRC" }
  | none =>
    match item.dstMac with
    | some dstMac => { mac := pyUpper (splitSlashHead dstMac), target := "DST" }
    | none => { mac := "", target := "" }

/-- The row `_get_total_statistics` builds from one wire item.  `dec` is
the comment decoder `_decode_text` (modelled separately; here an oracle
so that snapshot-level claims do not depend on its internals). -/
def toFilterData (dec : String → String) (item : Item) : FilterData :=
  let mt := get_mac_and_target item
  { action := item.action, disabled := item.disabled,
    comment := dec item.comment, mac := mt.mac, target := mt.target }

/-- `MikroTikRouter._get_total_statistics`: one fresh snapshot of the
device's rule list, one `FilterData` row per wire item, in device order. -/
def get_total_statistics (dec : String → String) (items : List Item) : List FilterData :=
  items.map (toFilterData dec)

/-- The match test `filter_data["mac"] == mac_address and
filter_data["target"] == target` used by every keyed driver loop. -/
def matchesKey (fd : FilterData) (mac target : String) : Bool :=
  fd.mac == mac && fd.target == target

end MikroTikRouter

namespace MikroTikRouter

/-- `MikroTikRouter.get_indices_of_filter`: all snapshot indices whose row
matches `(mac_address, target)`, in ascending order. -/
def get_indices_of_filter (stats : List FilterData) (mac target : String) : List Nat :=
  loopIndices (fun fd => matchesKey fd mac target) 0 stats

/-- `MikroTikRouter.get_indices_of_drop_filters`: all snapshot indices
whose row has `action == "drop"`, in ascending order. -/
def get_indices_of_drop_filters (stats : List FilterData) : List Nat :=
  loopIndices (fun fd => fd.action == "drop") 0 stats

/-- `MikroTikRouter.enable_filter` over one fresh snapshot `stats`.
The loop toggles (`/interface/bridge/filter/{state}` with
`=numbers={index}`) the first matching row and `break`s; the function body
has no `return`, so the Python function returns `None` on every path.
Result: the list of `(state, index)` toggle commands issued, and the
Python return value (`none` = Python `None`). -/
def enable_filter (stats : List FilterData) (mac target state : String) :
    List (String × Nat) × Option Bool :=
  match (loopIndices (fun fd => matchesKey fd mac target) 0 stats).head? with
  | some index => ([(state, index)], none)
  | none => ([], none)

/-- `MikroTikRouter.delete_filter` over one fresh snapshot `stats`.
The snapshot is reversed; for each matching row at reversed position
`index`, the command `/interface/bridge/filter/remove` with
`=numbers={len(statistics) - index - 1}` is issued.  Result: the removal
indices in the order the commands are sent, and the returned
`filter_was_deleted` flag. -/
def delete_filter (stats : List FilterData) (mac target : String) : List Nat × Bool :=
  let rev := stats.reverse
  let removals :=
    (loopIndices (fun fd => matchesKey fd mac target) 0 rev).map
      (fun index => rev.length - index - 1)
  (removals, !removals.isEmpty)

/-- One value of the dictionary built by `MikroTikRouter.get_statistics`:
`{"comment": ..., "disabled": ...}`. -/
structure StatEntry where
  comment : String
  disabled : String
deriving DecidableEq, Repr

/-- The loop of `MikroTikRouter.get_statistics`: rows with empty target
are skipped; the first row for a key inserts the entry (dictionary
insertion order = append); later rows for the same key only record the
key in `multiple_filters` (a set: added once).  `acc` is the dictionary
built so far, `warns` the `multiple_filters` set. -/
def statistics_merge : List FilterData →
    List ((String × String) × StatEntry) → List (String × String) →
    List ((String × String) × StatEntry) × List (String × String)
  | [], acc, warns => (acc, warns)
  | fd :: rest, acc, warns =>
    if fd.target == "" then statistics_merge rest acc warns
    else if (acc.lookup (fd.mac, fd.target)).isSome then
      statistics_merge rest acc
        (if (fd.mac, fd.target) ∈ warns then warns else warns ++ [(fd.mac, fd.target)])
    else
      statistics_merge rest
        (acc ++ [((fd.mac, fd.target), ⟨fd.comment, fd.disabled⟩)]) warns

/-- `MikroTikRouter.get_statistics`: merge one fresh snapshot into the
per-key dictionary, returning it together with the set of duplicated keys
that are logged as warnings.  No mutation command is issued. -/
def get_statistics (dec : String → String) (items : List Item) :
    List ((String × String) × StatEntry) × List (String × String) :=
  statistics_merge (get_total_statistics dec items) [] []

end MikroTikRouter

namespace MikroTikRouter

/-- The qualifying test seen by the `get_statistics` loop for a fixed
key `k`: non-empty target and key equality. -/
def qualifies (k : String × String) (fd : FilterData) : Bool :=
  !(fd.target == "") && ((fd.mac, fd.target) == k)

end MikroTikRouter

namespace MikroTikRouter

/-- `MikroTikRouter._encode_text`: `repr(raw_text.encode())[2:-1]` — the
body of the Python bytes-repr of the UTF-8 encoding, with the `b` prefix
and the surrounding quotes stripped. -/
def encode_text (s : String) : String :=
  let bs := strBytes s
  let q := chooseQuote bs
  ⟨(bs.map (reprByte q)).flatten⟩

/-- One hexadecimal digit's value, for `\xHH` escapes. -/
def hexVal (c : Char) : Option Nat :=
  if '0' ≤ c ∧ c ≤ '9' then some (c.toNat - 48)
  else if 'a' ≤ c ∧ c ≤ 'f' then some (c.toNat - 87)
  else if 'A' ≤ c ∧ c ≤ 'F' then some (c.toNat - 55)
  else none

/-- One octal digit's value. -/
def octVal (c : Char) : Option Nat :=
  if '0' ≤ c ∧ c ≤ '7' then some (c.toNat - 48) else none

/-- The parsing stage of `MikroTikRouter._decode_text`'s
`eval(f'b"{raw_text}"')`: the byte values of the Python bytes literal
`b"..."` whose body is the given characters.  `none` models a
`SyntaxError` raised by `eval` (this call sits OUTSIDE the method's
`try`, so the error propagates to the caller): an unescaped double quote
terminates the literal before the interpolated text ends, leaving a
malformed expression; a trailing backslash escapes the closing quote; a
non-ASCII character is illegal in a bytes literal; `\x` needs two hex
digits; an octal escape above 255 is rejected.  Escape semantics follow
Python: `\\`, `\'`, `\"`, `\n`, `\t`, `\r`, `\a`, `\b`, `\f`, `\v`,
`\xHH`, up to three octal digits, and an unrecognised escape keeps the
backslash and the character.  The escape handling lives in
`parseEscape`: the characters following a backslash are examined and the
produced byte values are returned with the number of characters consumed
(the escape letter plus any digits); `none` models a `SyntaxError`. -/
def parseEscape : List Char → Option (List Nat × Nat)
  | [] => none
  | e :: rest2 =>
    if e = '\\' then some ([92], 1)
    else if e = '\'' then some ([39], 1)
    else if e = '"' then some ([34], 1)
    else if e = 'n' then some ([10], 1)
    else if e = 't' then some ([9], 1)
    else if e = 'r' then some ([13], 1)
    else if e = 'a' then some ([7], 1)
    else if e = 'b' then some ([8], 1)
    else if e = 'f' then some ([12], 1)
    else if e = 'v' then some ([11], 1)
    else if e = 'x' then
      match rest2 with
      | h1 :: h2 :: _ =>
        match hexVal h1, hexVal h2 with
        | some a, some b => some ([16 * a + b], 3)
        | _, _ => none
      | _ => none
    else
      match octVal e with
      | some d1 =>
        match rest2 with
        | c2 :: rest3 =>
          match octVal c2 with
          | some d2 =>
            match rest3 with
            | c3 :: _ =>
              match octVal c3 with
              | some d3 =>
                if 64 * d1 + 8 * d2 + d3 < 256 then some ([64 * d1 + 8 * d2 + d3], 3)
                else none
              | none => some ([8 * d1 + d2], 2)
            | [] => some ([8 * d1 + d2], 2)
          | none => some ([d1], 1)
        | [] => some ([d1], 1)
      | none =>
        if e.toNat < 128 then some ([92, e.toNat], 1) else none

def parseBytesBody (l : List Char) : Option (List Nat) :=
  match l with
  | [] => some []
  | c :: rest =>
    if c = '"' then none
    else if c = '\\' then
      match parseEscape rest with
      | none => none
      | some (bs, n) => (parseBytesBody (rest.drop n)).map (bs ++ ·)
    else if c.toNat < 128 then (parseBytesBody rest).map (c.toNat :: ·)
    else none
termination_by l.length
decreasing_by all_goals simp <;> omega

/-- `MikroTikRouter._decode_text`.  An empty string is returned as is
(`if raw_text:`).  Otherwise the bytes literal is evaluated — a
`SyntaxError` there propagates (`Except.error`), since only the
`.decode` call is inside the `try`.  The `chardet.detect` +
`bytes.decode` pair is the oracle `detect`: `some t` is a successful
decode to `t`, `none` any exception there, after which the raw text is
returned unchanged (with a logged warning). -/
def decode_text (detect : List Nat → Option String) (raw : String) :
    Except Unit String :=
  if raw = "" then .ok raw
  else
    match parseBytesBody raw.data with
    | none => .error ()
    | some bs =>
      match detect bs with
      | some t => .ok t
      | none => .ok raw

/-- The rule record the device holds after
`/interface/bridge/filter/add` as issued by `MikroTikRouter.add_filter`:
an accept rule, enabled, with `{target.lower()}-mac-address` set to
`{mac_address}/FF:FF:FF:FF:FF:FF` and the comment text as encoded by
`_encode_text` (for an empty comment the field is simply absent, read
back as `""`, which `_encode_text` also yields). -/
def add_filter_item (mac target comment : String) : Item :=
  { action := "accept", disabled := "false",
    comment := encode_text comment,
    srcMac := if pyLower target == "src" then some (mac ++ "/FF:FF:FF:FF:FF:FF") else none,
    dstMac := if pyLower target == "dst" then some (mac ++ "/FF:FF:FF:FF:FF:FF") else none }

/-- `MikroTikRouter.add_filter`: the device appends the new rule at the
end of its rule list. -/
def add_filter (items : List Item) (mac target comment : String) : List Item :=
  items ++ [add_filter_item mac target comment]

/-- Device-side effect of `/interface/bridge/filter/{state}` with
`=numbers={i}`, the command `enable_filter` sends: rule `i`'s disabled
flag becomes `"false"` under `enable` and `"true"` under `disable`. -/
def apply_enable_command (state : String) : List Item → Nat → List Item
  | [], _ => []
  | it :: rest, 0 =>
    { it with disabled := if state == "enable" then "false" else "true" } :: rest
  | it :: rest, Nat.succ i => it :: apply_enable_command state rest i

/-- `MikroTikRouter.move_filter`, as the device executes
`/interface/bridge/filter/move` with `=destination={index_to}` and
`=numbers={index_from}`: the rule at `index_from` is relocated
immediately before the rule currently at `index_to` (an out-of-range
source leaves the list unchanged). -/
def move_filter (items : List Item) (index_from index_to : Nat) : List Item :=
  match items[index_from]? with
  | none => items
  | some it =>
    (items.eraseIdx index_from).insertIdx
      (if index_from < index_to then index_to - 1 else index_to) it

end MikroTikRouter

open MikroTikRouter

/-- Spec-side comparison definition for C5, following the spec's words
for `CanonicalFilter` ("comment: text (first non-empty value observed
wins)"): the first non-empty comment among the snapshot rows matching the
key.  Not derived from the code; used only to compare the code's merge
against the specified comment choice. -/
def specFirstNonEmptyComment (stats : List FilterData) (mac target : String) :
    Option String :=
  ((stats.filter (fun fd => matchesKey fd mac target)).map FilterData.comment).find?
    (fun c => !(c == ""))

/-- Python truthiness of the values `enable_filter` can produce
(`None` or a bool). -/
def pyTruthy : Option Bool → Bool
  | none => false
  | some b => b

/-- One record of `Routers._routers`: the parsed `ip_address` object
(modelled as a numeric address value, the order `ipaddress` objects
compare by) plus the optional per-device credential overrides. -/
structure RouterRec where
  ip : Nat
  user : Option String
  password : Option String
deriving DecidableEq, Repr

/-- Events emitted by the statistics cycle of `Routers.get_statistics`:
one `statistics_received(ip, statistics, bad)` per roster entry and the
terminal `statistics_finished`. -/
inductive StatEvent where
  | statisticsReceived (addr : String)
      (stats : List ((String × String) × MikroTikRouter.StatEntry)) (bad : Bool)
  | statisticsFinished
deriving DecidableEq, Repr

/-- Per-device oracle for one refresh cycle: the device's address string,
whether credential resolution raises (`resolveOk = false` models the
`ValueError` of `_get_user_and_password_for_router` or a missing record),
whether opening the `MikroTikRouter` session succeeds, and the outcome of
the `/interface/bridge/filter/print` listing behind
`router.get_statistics()` (`error` models a raised exception). -/
structure DeviceSpec where
  addr : String
  resolveOk : Bool
  connectOk : Bool
  listing : Except Unit (List Item)
deriving Repr

namespace Routers

/-- `Routers._get_user_and_password_for_router`.  `parse` is the
`ipaddress.ip_address` oracle (`none` = raises on a malformed address),
`defaults` is `self._default_data`, `routers` is `self._routers`.  The
loop returns at the first record whose parsed address matches, each
credential field falling back to the fleet default independently; any
failure (malformed address, unknown address) is logged and re-raised as
`ValueError` (`Except.error`).  Pure: reads only roster and defaults. -/
def get_user_and_password_for_router (parse : String → Option Nat)
    (defaults : String × String) (routers : List RouterRec) (s : String) :
    Except Unit (String × String) :=
  match parse s with
  | none => .error ()
  | some a =>
    match routers.find? (fun r => r.ip == a) with
    | some r => .ok (r.user.getD defaults.1, r.password.getD defaults.2)
    | none => .error ()

/-- `Routers._is_there_already_router`. -/
def is_there_already_router (routers : List RouterRec) (a : Nat) : Bool :=
  routers.any (fun r => r.ip == a)

/-- `Routers.add_ip_address`.  Result: the new `self._routers`, whether
`router_ip_address_added` was emitted, and whether `save_config_file`
ran.  A malformed (`parse` = `none`) or duplicate address returns early
with nothing changed; otherwise the record is appended with null
overrides and the list re-sorted by address (`sorted` = stable merge
sort on the parsed addresses). -/
def add_ip_address (parse : String → Option Nat) (routers : List RouterRec)
    (s : String) : List RouterRec × Bool × Bool :=
  match parse s with
  | none => (routers, false, false)
  | some a =>
    if is_there_already_router routers a then (routers, false, false)
    else
      (((routers ++ [({ ip := a, user := none, password := none } : RouterRec)]).mergeSort
          (fun r₁ r₂ => decide (r₁.ip ≤ r₂.ip))), true, true)

/-- The per-device body of the `Routers.get_statistics` loop:
`statistics = {}`and `bad_router = False`, then credential resolution and
session opening under one `try` (failure → `bad_router = True`), then —
only if not yet bad — `router.get_statistics()` under a second `try`
(failure → `bad_router = True`), and finally the
`statistics_received.emit(ip, statistics, bad_router)` call. -/
def refresh_one (dec : String → String) (d : DeviceSpec) : StatEvent :=
  if d.resolveOk && d.connectOk then
    match d.listing with
    | .ok items =>
      .statisticsReceived d.addr (MikroTikRouter.get_statistics dec items).1 false
    | .error _ => .statisticsReceived d.addr [] true
  else .statisticsReceived d.addr [] true

/-- `Routers.get_statistics`: the loop emits one `statistics_received`
per roster entry (accumulated in order), then `statistics_finished` is
emitted once after the loop. -/
def get_statistics (dec : String → String) (roster : List DeviceSpec) :
    List StatEvent :=
  roster.foldl (fun acc d => acc ++ [refresh_one dec d]) [] ++ [.statisticsFinished]

end Routers

namespace Routers

/-- The dictionary lookup
`{"enable": "false", "disable": "true"}.get(state, "")` performed by
`Routers.change_filter_state` before its fallback call. -/
def stateDisabledMap (state : String) : String :=
  if state == "enable" then "false" else if state == "disable" then "true" else ""

/-- The `filter_added` signal payload
`(router_ip_address, mac_address, target, comment, disabled)`. -/
structure FilterAddedEvent where
  ip : String
  mac : String
  target : String
  comment : String
  disabled : String
deriving DecidableEq, Repr

/-- `Routers.change_filter_state` for a device whose credential
resolution and session opening succeed and whose rule list is `items`.
Inside the `try`: `enable_filter` toggles the first matching rule on the
device (if any) and returns Python `None` (see C1); `None` is falsy, so
the fallback branch runs: after `state = {...}.get(state, "")`, the call
`router.add_filter(mac_address, target, comment, state)` passes four
arguments to a three-argument method and raises `TypeError` before any
wire command.  The `except` block then reads the device's merged
statistics and emits `filter_added` with the looked-up disabled value
(default `"-"`).  Result: the device's final rule list, the emitted
events, and whether an exception escaped to the caller. -/
def change_filter_state (dec : String → String) (ip : String) (items : List Item)
    (mac target comment state : String) :
    List Item × List FilterAddedEvent × Bool :=
  let stats := MikroTikRouter.get_total_statistics dec items
  let enableResult := MikroTikRouter.enable_filter stats mac target state
  let items1 := match enableResult.1.head? with
    | some (st, i) => MikroTikRouter.apply_enable_command st items i
    | none => items
  if pyTruthy enableResult.2 then
    (items1, [], false)
  else
    let _disabledFlag := stateDisabledMap state
    let statistics := MikroTikRouter.get_statistics dec items1
    let disabled :=
      ((statistics.1.lookup (mac, target)).map MikroTikRouter.StatEntry.disabled).getD "-"
    (items1, [⟨ip, mac, target, comment, disabled⟩], false)

/-- `Routers.add_filter_to_router` for a device whose credential
resolution and session opening succeed and whose rule list is `items`:
`add_filter` appends the rule, `get_indices_of_filter(...)[-1]` selects
the appended occurrence from a fresh listing (an empty index list raises
`IndexError`, caught by the `except` — second component `false`), and
when a fresh listing shows drop rules the new rule is moved before the
first of them.  Result: the device's final rule list and whether the
`try` block completed. -/
def add_filter_to_router (dec : String → String) (items : List Item)
    (mac target comment : String) : List Item × Bool :=
  match (MikroTikRouter.get_indices_of_filter
      (MikroTikRouter.get_total_statistics dec
        (MikroTikRouter.add_filter items mac target comment)) mac target).getLast? with
  | none => (MikroTikRouter.add_filter items mac target comment, false)
  | some fi =>
    match (MikroTikRouter.get_indices_of_drop_filters
        (MikroTikRouter.get_total_statistics dec
          (MikroTikRouter.add_filter items mac target comment))).head? with
    | some d =>
      (MikroTikRouter.move_filter
        (MikroTikRouter.add_filter items mac target comment) fi d, true)
    | none => (MikroTikRouter.add_filter items mac target comment, true)

end Routers

theorem loopIndices_shift (p : α → Bool) (i : Nat) (l : List α) :
    loopIndices p i l = (loopIndices p 0 l).map (· + i) := by
  induction l generalizing i with
  | nil => simp [loopIndices]
  | cons x rest ih =>
    by_cases h : p x
    · simp only [loopIndices, h, if_pos, List.map_cons]
      rw [ih (i + 1), ih 1, List.map_map]
      simp [Function.comp, Nat.add_assoc, Nat.add_comm 1 i]
    · simp only [loopIndices, h, if_neg, Bool.false_eq_true, not_false_iff]
      rw [ih (i + 1), ih 1, List.map_map]
      simp [Function.comp, Nat.add_assoc, Nat.add_comm 1 i]

theorem mem_loopIndices (p : α → Bool) (l : List α) (j : Nat) :
    j ∈ loopIndices p 0 l ↔ ∃ h : j < l.length, p (l.get ⟨j, h⟩) := by
  induction l generalizing j with
  | nil => simp [loopIndices]
  | cons x rest ih =>
    rw [loopIndices, loopIndices_shift p 1 rest]
    constructor
    · intro hmem
      by_cases hp : p x
      · rw [if_pos hp] at hmem
        rcases List.mem_cons.mp hmem with h0 | hmap
        · subst h0; exact ⟨Nat.succ_pos _, hp⟩
        · rcases List.mem_map.mp hmap with ⟨j', hj', rfl⟩
          rcases (ih j').mp hj' with ⟨hlt, hpj⟩
          exact ⟨Nat.succ_lt_succ hlt, hpj⟩
      · rw [if_neg hp] at hmem
        rcases List.mem_map.mp hmem with ⟨j', hj', rfl⟩
        rcases (ih j').mp hj' with ⟨hlt, hpj⟩
        exact ⟨Nat.succ_lt_succ hlt, hpj⟩
    · rintro ⟨hlt, hpj⟩
      match j with
      | 0 =>
        simp only [List.get] at hpj
        rw [if_pos hpj]
        exact List.mem_cons_self _ _
      | j' + 1 =>
        have hj' : j' ∈ loopIndices p 0 rest :=
          (ih j').mpr ⟨Nat.lt_of_succ_lt_succ hlt, hpj⟩
        have : j' + 1 ∈ (loopIndices p 0 rest).map (· + 1) :=
          List.mem_map.mpr ⟨j', hj', rfl⟩
        by_cases hp : p x
        · rw [if_pos hp]; exact List.mem_cons_of_mem _ this
        · rw [if_neg hp]; exact this

theorem loopIndices_pairwise_lt (p : α → Bool) (l : List α) :
    List.Pairwise (· < ·) (loopIndices p 0 l) := by
  induction l with
  | nil => simp [loopIndices]
  | cons x rest ih =>
    rw [loopIndices, loopIndices_shift p 1 rest]
    have hmap : List.Pairwise (· < ·) ((loopIndices p 0 rest).map (· + 1)) := by
      rw [List.pairwise_map]
      exact ih.imp (fun h => Nat.add_lt_add_right h 1)
    by_cases hp : p x
    · rw [if_pos hp]
      refine List.pairwise_cons.mpr ⟨?_, hmap⟩
      intro a ha
      rcases List.mem_map.mp ha with ⟨j, _, rfl⟩
      exact Nat.succ_pos j
    · rw [if_neg hp]; exact hmap

theorem loopIndices_append_singleton (p : α → Bool) (l : List α) (x : α) :
    loopIndices p 0 (l ++ [x]) =
      loopIndices p 0 l ++ (if p x then [l.length] else []) := by
  induction l with
  | nil =>
    by_cases hp : p x <;> simp [loopIndices, hp]
  | cons y rest ih =>
    rw [List.cons_append, loopIndices, loopIndices,
      loopIndices_shift p 1 (rest ++ [x]), loopIndices_shift p 1 rest, ih]
    by_cases hp : p x
    · by_cases hq : p y <;> simp [hp, hq, List.map_append]
    · by_cases hq : p y <;> simp [hp, hq]

/-- Every collected index is below the list's length. -/
theorem loopIndices_lt_length (p : α → Bool) (l : List α) {j : Nat}
    (hj : j ∈ loopIndices p 0 l) : j < l.length :=
  ((mem_loopIndices p l j).mp hj).1

/-- Indices over the reversed list, sent back through `n - i - 1`
(`n` the length), are exactly the original indices in reverse order:
the arithmetic behind `delete_filter`'s descending removals. -/
theorem loopIndices_reverse_map (p : α → Bool) (l : List α) :
    (loopIndices p 0 l.reverse).map (fun i => l.length - i - 1) =
      (loopIndices p 0 l).reverse := by
  induction l with
  | nil => simp [loopIndices]
  | cons x rest ih =>
    rw [List.reverse_cons, loopIndices_append_singleton, List.map_append]
    have hshift :
        (loopIndices p 0 rest.reverse).map (fun i => (x :: rest).length - i - 1) =
          ((loopIndices p 0 rest.reverse).map (fun i => rest.length - i - 1)).map
            (· + 1) := by
      rw [List.map_map]
      refine List.map_congr_left ?_
      intro i hi
      have hlt : i < rest.length := by
        have := loopIndices_lt_length p rest.reverse hi
        simpa using this
      simp only [Function.comp, List.length_cons]
      omega
    rw [hshift, ih, loopIndices, loopIndices_shift p 1 rest]
    by_cases hp : p x
    · simp [hp, List.length_reverse, List.map_reverse]
    · simp [hp, List.length_reverse, List.map_reverse]

theorem loopIndices_map (q : β → Bool) (f : α → β) :
    ∀ (l : List α) (i : Nat),
    loopIndices q i (l.map f) = loopIndices (fun a => q (f a)) i l := by
  intro l
  induction l with
  | nil => intro i; rfl
  | cons a t ih =>
    intro i
    rw [List.map_cons, loopIndices, loopIndices]
    by_cases h : q (f a) <;> simp [h, ih]

theorem insertIdx_eq_take_cons_drop :
    ∀ (d : Nat) (x : α) (l : List α), d ≤ l.length →
    List.insertIdx d x l = l.take d ++ x :: l.drop d := by
  intro d
  induction d with
  | zero => intro x l _; simp [List.insertIdx_zero]
  | succ n ih =>
    intro x l h
    match l with
    | [] => exact absurd h (by simp)
    | a :: t =>
      rw [List.insertIdx_succ_cons, ih x t (by simpa using h)]
      simp

namespace MikroTikRouter

theorem lookup_append_single (l : List ((String × String) × StatEntry))
    (k k' : String × String) (v : StatEntry) :
    (l ++ [(k', v)]).lookup k =
      (l.lookup k).or (if k == k' then some v else none) := by
  induction l with
  | nil => cases h : k == k' <;> simp [List.lookup, h]
  | cons a t ih =>
    rw [List.cons_append, List.lookup, List.lookup]
    cases h : k == a.1
    · simpa using ih
    · simp

theorem statistics_merge_filter_key (k : String × String) :
    ∀ (stats : List FilterData) (acc : List ((String × String) × StatEntry))
      (warns : List (String × String)),
    (statistics_merge stats acc warns).1.filter (fun e => e.1 == k) =
      acc.filter (fun e => e.1 == k) ++
        (if (acc.lookup k).isSome then []
         else ((stats.find? (qualifies k)).map
            (fun fd => (k, (⟨fd.comment, fd.disabled⟩ : StatEntry)))).toList) := by
  intro stats
  induction stats with
  | nil => intro acc warns; by_cases h : (acc.lookup k).isSome <;> simp [statistics_merge, h]
  | cons fd rest ih =>
    intro acc warns
    by_cases htgt : fd.target == ""
    · have hq : ¬ qualifies k fd = true := by simp [qualifies, htgt]
      rw [statistics_merge, if_pos htgt, ih, List.find?_cons_of_neg _ hq]
    · rw [statistics_merge, if_neg htgt]
      have htgt' : (fd.target == "") = false := by
        revert htgt; cases fd.target == "" <;> simp
      by_cases hkeq : k = (fd.mac, fd.target)
      · subst hkeq
        have hq : qualifies (fd.mac, fd.target) fd = true := by simp [qualifies, htgt']
        by_cases hseen : (acc.lookup (fd.mac, fd.target)).isSome
        · rw [if_pos hseen, ih, if_pos hseen, if_pos hseen]
        · rw [if_neg hseen, ih, List.filter_append, lookup_append_single]
          have hnone : acc.lookup (fd.mac, fd.target) = none :=
            Option.not_isSome_iff_eq_none.mp hseen
          rw [hnone, List.find?_cons_of_pos _ hq]
          simp
      · have hkb : (k == (fd.mac, fd.target)) = false := beq_eq_false_iff_ne.mpr hkeq
        have hkb' : ((fd.mac, fd.target) == k) = false :=
          beq_eq_false_iff_ne.mpr (Ne.symm hkeq)
        have hq : ¬ qualifies k fd = true := by simp [qualifies, hkb']
        by_cases hseen : (acc.lookup (fd.mac, fd.target)).isSome
        · rw [if_pos hseen, ih, List.find?_cons_of_neg _ hq]
        · rw [if_neg hseen, ih, List.filter_append, lookup_append_single, hkb,
            List.find?_cons_of_neg _ hq]
          rcases hlk : acc.lookup k with _ | v <;> simp [List.filter, hkb', hlk]

theorem statistics_merge_warns (k : String × String) :
    ∀ (stats : List FilterData) (acc : List ((String × String) × StatEntry))
      (warns : List (String × String)),
    (k ∈ (statistics_merge stats acc warns).2 ↔
      k ∈ warns ∨ (if (acc.lookup k).isSome
                   then 1 ≤ stats.countP (qualifies k)
                   else 2 ≤ stats.countP (qualifies k))) := by
  intro stats
  induction stats with
  | nil =>
    intro acc warns
    by_cases h : (acc.lookup k).isSome <;> simp [statistics_merge, h]
  | cons fd rest ih =>
    intro acc warns
    by_cases htgt : fd.target == ""
    · have hq : (qualifies k fd) = false := by simp [qualifies, htgt]
      rw [statistics_merge, if_pos htgt, ih, List.countP_cons, hq]
      simp
    · rw [statistics_merge, if_neg htgt]
      have htgt' : (fd.target == "") = false := by
        revert htgt; cases fd.target == "" <;> simp
      by_cases hkeq : k = (fd.mac, fd.target)
      · subst hkeq
        have hq : qualifies (fd.mac, fd.target) fd = true := by simp [qualifies, htgt']
        by_cases hseen : (acc.lookup (fd.mac, fd.target)).isSome
        · rw [if_pos hseen, ih, List.countP_cons, hq]
          have hmemw : (fd.mac, fd.target) ∈ (if (fd.mac, fd.target) ∈ warns then warns
              else warns ++ [(fd.mac, fd.target)]) := by
            by_cases hw : (fd.mac, fd.target) ∈ warns
            · rw [if_pos hw]; exact hw
            · rw [if_neg hw]; exact List.mem_append_right _ (List.mem_singleton.mpr rfl)
          simp [hmemw, hseen]
        · rw [if_neg hseen, ih, List.countP_cons, hq]
          have hlkapp : ((acc ++ [((fd.mac, fd.target),
              (⟨fd.comment, fd.disabled⟩ : StatEntry))]).lookup (fd.mac, fd.target)).isSome := by
            rw [lookup_append_single, beq_self_eq_true]
            rcases acc.lookup (fd.mac, fd.target) with _ | v <;> simp
          rw [if_pos hlkapp, if_neg hseen, if_pos rfl]
          have h2 : (1 ≤ List.countP (qualifies (fd.mac, fd.target)) rest) ↔
              (2 ≤ List.countP (qualifies (fd.mac, fd.target)) rest + 1) := by omega
          rw [h2]
      · have hkb : (k == (fd.mac, fd.target)) = false := beq_eq_false_iff_ne.mpr hkeq
        have hkb' : ((fd.mac, fd.target) == k) = false :=
          beq_eq_false_iff_ne.mpr (Ne.symm hkeq)
        have hq : qualifies k fd = false := by simp [qualifies, hkb']
        by_cases hseen : (acc.lookup (fd.mac, fd.target)).isSome
        · rw [if_pos hseen, ih, List.countP_cons, hq]
          have hmemw : (k ∈ (if (fd.mac, fd.target) ∈ warns then warns
              else warns ++ [(fd.mac, fd.target)])) ↔ k ∈ warns := by
            by_cases hw : (fd.mac, fd.target) ∈ warns
            · rw [if_pos hw]
            · rw [if_neg hw, List.mem_append]
              simp only [List.mem_singleton]
              exact ⟨fun h => h.elim id (fun h' => absurd h' hkeq), Or.inl⟩
          rw [hmemw]
          simp
        · rw [if_neg hseen, ih, List.countP_cons, hq]
          have hlkapp : (acc ++ [((fd.mac, fd.target),
              (⟨fd.comment, fd.disabled⟩ : StatEntry))]).lookup k = acc.lookup k := by
            rw [lookup_append_single, hkb]
            rcases acc.lookup k with _ | v <;> simp
          rw [hlkapp]
          simp

theorem statistics_merge_mem (e : (String × String) × StatEntry) :
    ∀ (stats : List FilterData) (acc : List ((String × String) × StatEntry))
      (warns : List (String × String)),
    e ∈ (statistics_merge stats acc warns).1 →
      e ∈ acc ∨ ∃ fd ∈ stats, ¬ fd.target = "" ∧
        e = ((fd.mac, fd.target), ⟨fd.comment, fd.disabled⟩) := by
  intro stats
  induction stats with
  | nil => intro acc warns h; exact Or.inl h
  | cons fd rest ih =>
    intro acc warns h
    by_cases htgt : fd.target == ""
    · rw [statistics_merge, if_pos htgt] at h
      rcases ih acc warns h with hacc | ⟨fd', hfd', hx⟩
      · exact Or.inl hacc
      · exact Or.inr ⟨fd', List.mem_cons_of_mem _ hfd', hx⟩
    · rw [statistics_merge, if_neg htgt] at h
      by_cases hseen : (acc.lookup (fd.mac, fd.target)).isSome
      · rw [if_pos hseen] at h
        rcases ih acc _ h with hacc | ⟨fd', hfd', hx⟩
        · exact Or.inl hacc
        · exact Or.inr ⟨fd', List.mem_cons_of_mem _ hfd', hx⟩
      · rw [if_neg hseen] at h
        rcases ih _ warns h with hacc | ⟨fd', hfd', hx⟩
        · rcases List.mem_append.mp hacc with h1 | h2
          · exact Or.inl h1
          · refine Or.inr ⟨fd, List.mem_cons_self _ _, ?_, ?_⟩
            · intro hcc; rw [hcc] at htgt; exact htgt rfl
            · exact List.mem_singleton.mp h2
        · exact Or.inr ⟨fd', List.mem_cons_of_mem _ hfd', hx⟩

end MikroTikRouter

theorem qualifies_eq_matchesKey (mac target : String) (htgt : ¬ target = "")
    (fd : FilterData) :
    qualifies (mac, target) fd = matchesKey fd mac target := by
  rw [Bool.eq_iff_iff]
  simp only [qualifies, matchesKey, Bool.and_eq_true, Bool.not_eq_true', beq_iff_eq,
    beq_eq_false_iff_ne, Prod.mk.injEq]
  constructor
  · rintro ⟨h1, h2, h3⟩; exact ⟨h2, h3⟩
  · rintro ⟨h2, h3⟩
    exact ⟨by rw [h3]; exact htgt, h2, h3⟩

/-- C1: `MikroTikRouter.enable_filter` does find and toggle exactly the
first snapshot rule matching `(mac_address, target)` and creates nothing,
but the Python function body has no `return` statement: it evaluates to
`None` on every path, never to the boolean the spec (and its caller
`Routers.change_filter_state`, which tests the returned value) requires.
This theorem evaluates the code at both failing situations: a snapshot
holding a matching rule (the rule is toggled, yet `None` — not `True` —
comes back, so the caller's not-found test fires), and a snapshot with no
match (again `None`, not `False`, comes back). -/
theorem c1_enable_filter_returns_none_bug :
    enable_filter [⟨"accept", "false", "", "AA:BB:CC:DD:EE:FF", "SRC"⟩]
        "AA:BB:CC:DD:EE:FF" "SRC" "disable" = ([("disable", 0)], none)
    ∧ enable_filter [] "AA:BB:CC:DD:EE:FF" "SRC" "disable" = ([], none)
    ∧ ∀ (stats : List FilterData) (mac target state : String),
        (enable_filter stats mac target state).2 = none := by
  refine ⟨rfl, rfl, ?_⟩
  intro stats mac target state
  rw [enable_filter]
  rcases (loopIndices (fun fd => matchesKey fd mac target) 0 stats).head? with _ | i <;> rfl

/-- C3: `MikroTikRouter.delete_filter`, run against one fresh snapshot,
issues a remove command for every rule matching `(mac_address, target)`
— and only those — in strictly descending original-index order, and
returns `True` iff at least one rule was removed (`False` on zero
matches, `True` for any number of duplicates, all of which get their own
remove command). -/
theorem c3_delete_filter_descending_all_matches
    (stats : List FilterData) (mac target : String) :
    (delete_filter stats mac target).1 =
        (get_indices_of_filter stats mac target).reverse
    ∧ List.Sorted (· > ·) (delete_filter stats mac target).1
    ∧ (∀ j, j ∈ (delete_filter stats mac target).1 ↔
        ∃ h : j < stats.length, matchesKey (stats.get ⟨j, h⟩) mac target)
    ∧ ((delete_filter stats mac target).2 = true ↔
        ¬ get_indices_of_filter stats mac target = []) := by
  have h1 : (delete_filter stats mac target).1 =
      (get_indices_of_filter stats mac target).reverse := by
    show (loopIndices (fun fd => matchesKey fd mac target) 0 stats.reverse).map
        (fun index => stats.reverse.length - index - 1) = _
    rw [List.length_reverse]
    exact loopIndices_reverse_map _ stats
  refine ⟨h1, ?_, ?_, ?_⟩
  · rw [h1]
    have := loopIndices_pairwise_lt (fun fd => matchesKey fd mac target) stats
    exact List.pairwise_reverse.mpr (this.imp (fun h => h))
  · intro j
    rw [h1, List.mem_reverse]
    exact mem_loopIndices _ stats j
  · show (!((loopIndices (fun fd => matchesKey fd mac target) 0 stats.reverse).map
        (fun index => stats.reverse.length - index - 1)).isEmpty) = true ↔ _
    have h2 : ((loopIndices (fun fd => matchesKey fd mac target) 0 stats.reverse).map
        (fun index => stats.reverse.length - index - 1)) =
          (get_indices_of_filter stats mac target).reverse := h1
    rw [h2]
    rcases h : get_indices_of_filter stats mac target with _ | ⟨i, rest⟩
    · simp
    · simp [List.isEmpty_iff]

/-- C5 counterexample: on a device whose snapshot holds two rules for the
same key, the first with an EMPTY comment and the second with comment
`"x"`, the merged entry keeps the first rule's empty comment, not the
first non-empty comment (`"x"`) the claim requires. -/
theorem c5_first_comment_counterexample :
    (MikroTikRouter.get_statistics (fun s => s)
        [⟨"accept", "false", "", some "AA:BB:CC:DD:EE:FF", none⟩,
         ⟨"accept", "false", "x", some "AA:BB:CC:DD:EE:FF", none⟩]).1 =
      [(("AA:BB:CC:DD:EE:FF", "SRC"), ⟨"", "false"⟩)]
    ∧ specFirstNonEmptyComment
        (get_total_statistics (fun s => s)
          [⟨"accept", "false", "", some "AA:BB:CC:DD:EE:FF", none⟩,
           ⟨"accept", "false", "x", some "AA:BB:CC:DD:EE:FF", none⟩])
        "AA:BB:CC:DD:EE:FF" "SRC" = some "x"
    ∧ ("" : String) ≠ "x" := by
  refine ⟨rfl, rfl, by decide⟩

/-- C5 (amended): when a device snapshot holds two or more rules for the
same key `(mac, target)`, the merged statistics hold exactly one entry
for that key, the key is recorded in the duplicate-warning set (and no
remove command is issued — `get_statistics` returns data only), and the
entry's comment and disabled flag are those of the FIRST matching rule
observed, even when its comment is empty. -/
theorem c5_duplicate_key_single_entry_first_rule_wins
    (dec : String → String) (items : List Item) (mac target : String)
    (fd₀ : FilterData) (htgt : ¬ target = "")
    (hfind : (get_total_statistics dec items).find?
        (fun fd => matchesKey fd mac target) = some fd₀)
    (hdup : 2 ≤ (get_total_statistics dec items).countP
        (fun fd => matchesKey fd mac target)) :
    (MikroTikRouter.get_statistics dec items).1.filter
        (fun e => e.1 == (mac, target)) =
      [((mac, target), ⟨fd₀.comment, fd₀.disabled⟩)]
    ∧ (mac, target) ∈ (MikroTikRouter.get_statistics dec items).2 := by
  have hfun : qualifies (mac, target) = fun fd => matchesKey fd mac target :=
    funext (qualifies_eq_matchesKey mac target htgt)
  constructor
  · have hA := statistics_merge_filter_key (mac, target)
      (get_total_statistics dec items) [] []
    rw [hfun, hfind] at hA
    simpa [MikroTikRouter.get_statistics, List.lookup] using hA
  · have hB := statistics_merge_warns (mac, target)
      (get_total_statistics dec items) [] []
    rw [hfun] at hB
    have : ((List.lookup (mac, target)
        ([] : List ((String × String) × StatEntry))).isSome) = false := rfl
    rw [MikroTikRouter.get_statistics, hB]
    simp [this, hdup, List.lookup]

/-- C5 witness: the amended theorem applied to the concrete two-rule
duplicate snapshot. -/
theorem c5_duplicate_key_witness :
    (MikroTikRouter.get_statistics (fun s => s)
        [⟨"accept", "false", "", some "AA:BB:CC:DD:EE:FF", none⟩,
         ⟨"accept", "false", "x", some "AA:BB:CC:DD:EE:FF", none⟩]).1.filter
        (fun e => e.1 == ("AA:BB:CC:DD:EE:FF", "SRC")) =
      [(("AA:BB:CC:DD:EE:FF", "SRC"), ⟨"", "false"⟩)]
    ∧ ("AA:BB:CC:DD:EE:FF", "SRC") ∈
        (MikroTikRouter.get_statistics (fun s => s)
          [⟨"accept", "false", "", some "AA:BB:CC:DD:EE:FF", none⟩,
           ⟨"accept", "false", "x", some "AA:BB:CC:DD:EE:FF", none⟩]).2 :=
  c5_duplicate_key_single_entry_first_rule_wins (fun s => s)
    [⟨"accept", "false", "", some "AA:BB:CC:DD:EE:FF", none⟩,
     ⟨"accept", "false", "x", some "AA:BB:CC:DD:EE:FF", none⟩]
    "AA:BB:CC:DD:EE:FF" "SRC" ⟨"accept", "false", "", "AA:BB:CC:DD:EE:FF", "SRC"⟩
    (by decide) rfl (by decide)

/-- C10: every entry of the merged per-device statistics comes from a
snapshot rule carrying a `src-mac-address` or `dst-mac-address` field
(rules with neither are excluded), and the entry's key is the rule's MAC
truncated at the first `/` and uppercased, with target `SRC` taking
precedence whenever the rule carries `src-mac-address`. -/
theorem c10_statistics_entries_from_mac_rules
    (dec : String → String) (items : List Item)
    (e : (String × String) × StatEntry)
    (he : e ∈ (MikroTikRouter.get_statistics dec items).1) :
    ∃ it ∈ items,
      (match it.srcMac with
       | some s => e.1 = (pyUpper (splitSlashHead s), "SRC")
       | none => ∃ d, it.dstMac = some d ∧
            e.1 = (pyUpper (splitSlashHead d), "DST")) := by
  rcases statistics_merge_mem e (get_total_statistics dec items) [] [] he with
    hacc | ⟨fd, hfd, htgt, hx⟩
  · exact absurd hacc (List.not_mem_nil e)
  · rcases List.mem_map.mp hfd with ⟨it, hit, rfl⟩
    refine ⟨it, hit, ?_⟩
    rcases hsrc : it.srcMac with _ | s
    · rcases hdst : it.dstMac with _ | d
      · exfalso
        apply htgt
        show (toFilterData dec it).target = ""
        simp [toFilterData, get_mac_and_target, hsrc, hdst]
      · refine ⟨d, rfl, ?_⟩
        rw [hx]
        simp [toFilterData, get_mac_and_target, hsrc, hdst]
    · rw [hx]
      simp [toFilterData, get_mac_and_target, hsrc]

/-- C10 witness: the theorem at a concrete snapshot whose single rule
carries a masked, lower-case `src-mac-address`. -/
theorem c10_witness :
    ∃ it ∈ [({ action := "accept", disabled := "false",
               srcMac := some "aa:bb:cc:dd:ee:ff/FF:FF:FF:FF:FF:FF" } : Item)],
      (match it.srcMac with
       | some s => (("AA:BB:CC:DD:EE:FF", "SRC"), (⟨"", "false"⟩ : StatEntry)).1 =
            (pyUpper (splitSlashHead s), "SRC")
       | none => ∃ d, it.dstMac = some d ∧
            (("AA:BB:CC:DD:EE:FF", "SRC"), (⟨"", "false"⟩ : StatEntry)).1 =
              (pyUpper (splitSlashHead d), "DST")) :=
  c10_statistics_entries_from_mac_rules (fun s => s)
    [{ action := "accept", disabled := "false",
       srcMac := some "aa:bb:cc:dd:ee:ff/FF:FF:FF:FF:FF:FF" }]
    (("AA:BB:CC:DD:EE:FF", "SRC"), ⟨"", "false"⟩) (by decide)

namespace MikroTikRouter

/-- C4: the comment round-trip `_decode_text(_encode_text(s)) = s` fails.
For `s` the one-character string `"` the encoder yields `"` itself
(`repr(b'"')` is `b'"'`, quoted with single quotes, so the double quote
stays unescaped and survives the `[2:-1]` slice); the decoder then
builds `eval('b"""')`, an unterminated triple-quoted bytes literal, and
the `SyntaxError` escapes `_decode_text` (the `eval` is outside its
`try`) — for every possible behaviour of the chardet-detection oracle,
since the failure precedes detection.  The spec's required identity
round-trip under a declared encoding does not hold. -/
theorem c4_comment_roundtrip_quote_bug :
    encode_text "\"" = "\""
    ∧ parseBytesBody (String.data "\"") = none
    ∧ ∀ detect : List Nat → Option String,
        decode_text detect (encode_text "\"") = Except.error () := by
  have hp : parseBytesBody (String.data "\"") = none := by
    rw [parseBytesBody]
    rfl
  refine ⟨rfl, hp, ?_⟩
  intro detect
  have he : encode_text "\"" = "\"" := rfl
  rw [he]
  unfold decode_text
  rw [if_neg (by decide), hp]

end MikroTikRouter

namespace Routers

theorem foldl_emit_eq_map (dec : String → String) :
    ∀ (roster : List DeviceSpec) (init : List StatEvent),
    roster.foldl (fun acc d => acc ++ [refresh_one dec d]) init =
      init ++ roster.map (refresh_one dec) := by
  intro roster
  induction roster with
  | nil => intro init; simp
  | cons d rest ih =>
    intro init
    rw [List.foldl_cons, List.map_cons, ih]
    simp

theorem refresh_one_ne_finished (dec : String → String) (d : DeviceSpec) :
    ¬ refresh_one dec d = .statisticsFinished := by
  rw [refresh_one]
  rcases d.resolveOk && d.connectOk with _ | _
  · simp
  · rcases d.listing with e | items <;> simp

/-- C6 counterexample: a roster record with a user override but no
password override.  The code resolves to `(override user, default
password)`; the claim requires the full fleet-default pair whenever the
two overrides are not both set. -/
theorem c6_mixed_override_counterexample :
    get_user_and_password_for_router (fun s => if s = "7" then some 7 else none)
        ("du", "dp") [⟨7, some "u", none⟩] "7" = Except.ok ("u", "dp")
    ∧ (("u", "dp") : String × String) ≠ ("du", "dp") :=
  ⟨rfl, by decide⟩

/-- C6 (amended): credential resolution is pure over roster and defaults;
it raises (before any network I/O) when the address is malformed or not
in the roster, and otherwise resolves EACH field independently — the
override when set, the fleet default for that field when null; in
particular when both overrides are set it returns the override pair. -/
theorem c6_per_field_credential_fallback
    (parse : String → Option Nat) (defaults : String × String)
    (routers : List RouterRec) (s : String) :
    (parse s = none →
      get_user_and_password_for_router parse defaults routers s = .error ())
    ∧ (∀ a, parse s = some a → (∀ r ∈ routers, ¬ r.ip = a) →
      get_user_and_password_for_router parse defaults routers s = .error ())
    ∧ (∀ a r, parse s = some a → routers.find? (fun t => t.ip == a) = some r →
      get_user_and_password_for_router parse defaults routers s =
          .ok (r.user.getD defaults.1, r.password.getD defaults.2)
      ∧ (∀ u p, r.user = some u → r.password = some p →
          get_user_and_password_for_router parse defaults routers s = .ok (u, p))) := by
  refine ⟨?_, ?_, ?_⟩
  · intro h
    simp only [get_user_and_password_for_router, h]
  · intro a hp hnone
    have hf : routers.find? (fun t => t.ip == a) = none :=
      List.find?_eq_none.mpr (fun r hr => by
        simp only [beq_iff_eq]
        exact hnone r hr)
    simp only [get_user_and_password_for_router, hp, hf]
  · intro a r hp hf
    constructor
    · simp only [get_user_and_password_for_router, hp, hf]
    · intro u p hu hpw
      simp only [get_user_and_password_for_router, hp, hf, hu, hpw, Option.getD_some]

/-- C6 witness: the amended theorem applied at a malformed address, an
unknown address, and a fully-overridden record. -/
theorem c6_per_field_credential_witness :
    get_user_and_password_for_router (fun s => if s = "7" then some 7 else none)
        ("du", "dp") [⟨7, some "u", some "p"⟩] "x" = Except.error ()
    ∧ get_user_and_password_for_router (fun s => if s = "7" then some 7 else none)
        ("du", "dp") [] "7" = Except.error ()
    ∧ get_user_and_password_for_router (fun s => if s = "7" then some 7 else none)
        ("du", "dp") [⟨7, some "u", some "p"⟩] "7" = Except.ok ("u", "p") :=
  ⟨(c6_per_field_credential_fallback (fun s => if s = "7" then some 7 else none)
      ("du", "dp") [⟨7, some "u", some "p"⟩] "x").1 (by decide),
   (c6_per_field_credential_fallback (fun s => if s = "7" then some 7 else none)
      ("du", "dp") [] "7").2.1 7 (by decide) (by intro r hr; cases hr),
   ((c6_per_field_credential_fallback (fun s => if s = "7" then some 7 else none)
      ("du", "dp") [⟨7, some "u", some "p"⟩] "7").2.2 7 ⟨7, some "u", some "p"⟩
      (by decide) rfl).2 "u" "p" rfl rfl⟩

/-- C9: `Routers.add_ip_address` leaves the roster untouched — no
emitted event, no persist — when the address is malformed or already
present; otherwise the new record enters with null credential overrides,
the roster afterwards is a permutation of the old roster plus the new
record and is sorted by address, the roster-change event is emitted and
the configuration is saved. -/
theorem c9_add_ip_address_sorted_insert
    (parse : String → Option Nat) (routers : List RouterRec) (s : String) :
    (parse s = none → add_ip_address parse routers s = (routers, false, false))
    ∧ (∀ a, parse s = some a → (∃ r ∈ routers, r.ip = a) →
        add_ip_address parse routers s = (routers, false, false))
    ∧ (∀ a, parse s = some a → (∀ r ∈ routers, ¬ r.ip = a) →
        (add_ip_address parse routers s).1.Perm
            (routers ++ [{ ip := a, user := none, password := none }])
        ∧ List.Sorted (fun r₁ r₂ : RouterRec => r₁.ip ≤ r₂.ip)
            (add_ip_address parse routers s).1
        ∧ (add_ip_address parse routers s).2 = (true, true)) := by
  refine ⟨?_, ?_, ?_⟩
  · intro h
    simp only [add_ip_address, h]
  · rintro a hp ⟨r, hr, hip⟩
    have hdup : is_there_already_router routers a = true :=
      List.any_eq_true.mpr ⟨r, hr, by simp [beq_iff_eq, hip]⟩
    simp only [add_ip_address, hp, hdup, if_pos]
  · intro a hp hfresh
    have hdup : is_there_already_router routers a = false := by
      rw [is_there_already_router, List.any_eq_false]
      intro r hr
      simp only [beq_iff_eq]
      exact hfresh r hr
    have hgoal : add_ip_address parse routers s =
        (((routers ++ [({ ip := a, user := none, password := none } : RouterRec)]).mergeSort
          (fun r₁ r₂ => decide (r₁.ip ≤ r₂.ip))), true, true) := by
      simp only [add_ip_address, hp, hdup]
      rfl
    rw [hgoal]
    refine ⟨List.mergeSort_perm _ _, ?_, rfl⟩
    have hs := @List.sorted_mergeSort RouterRec
      (fun r₁ r₂ : RouterRec => decide (r₁.ip ≤ r₂.ip))
      (fun x y z hxy hyz => by
        simp only [decide_eq_true_eq] at hxy hyz ⊢
        omega)
      (fun x y => by
        simp only [Bool.or_eq_true, decide_eq_true_eq]
        omega)
      (routers ++ [({ ip := a, user := none, password := none } : RouterRec)])
    exact hs.imp (fun h => by simpa using h)

/-- C9 witness: the theorem applied at a malformed address, a duplicate
address, and a fresh address inserted before a larger one. -/
theorem c9_add_ip_address_witness :
    add_ip_address (fun s => if s = "7" then some 7 else none) [⟨9, none, none⟩] "x" =
        ([⟨9, none, none⟩], false, false)
    ∧ add_ip_address (fun s => if s = "7" then some 7 else none) [⟨7, none, none⟩] "7" =
        ([⟨7, none, none⟩], false, false)
    ∧ (add_ip_address (fun s => if s = "7" then some 7 else none)
          [⟨9, none, none⟩] "7").1.Perm
        ([⟨9, none, none⟩] ++ [{ ip := 7, user := none, password := none }])
    ∧ List.Sorted (fun r₁ r₂ : RouterRec => r₁.ip ≤ r₂.ip)
        (add_ip_address (fun s => if s = "7" then some 7 else none)
          [⟨9, none, none⟩] "7").1 :=
  ⟨(c9_add_ip_address_sorted_insert (fun s => if s = "7" then some 7 else none)
      [⟨9, none, none⟩] "x").1 (by decide),
   (c9_add_ip_address_sorted_insert (fun s => if s = "7" then some 7 else none)
      [⟨7, none, none⟩] "7").2.1 7 (by decide)
      ⟨⟨7, none, none⟩, List.mem_singleton.mpr rfl, rfl⟩,
   ((c9_add_ip_address_sorted_insert (fun s => if s = "7" then some 7 else none)
      [⟨9, none, none⟩] "7").2.2 7 (by decide)
      (by rintro r hr; rw [List.mem_singleton.mp hr]; decide)).1,
   ((c9_add_ip_address_sorted_insert (fun s => if s = "7" then some 7 else none)
      [⟨9, none, none⟩] "7").2.2 7 (by decide)
      (by rintro r hr; rw [List.mem_singleton.mp hr]; decide)).2.1⟩

/-- C7: the refresh cycle visits every roster entry in order and emits
exactly one `statistics_received` per entry followed by a single
terminal `statistics_finished`; an entry on which credential resolution,
session opening, or rule listing fails is reported with `bad = true` and
an empty statistics mapping (contributing no catalog entries) without
disturbing the events of the other entries; a fully healthy entry is
reported with its merged statistics and `bad = false`. -/
theorem c7_refresh_cycle_isolated_single_finish
    (dec : String → String) (roster : List DeviceSpec) :
    get_statistics dec roster =
        roster.map (refresh_one dec) ++ [StatEvent.statisticsFinished]
    ∧ (∀ d : DeviceSpec,
        (d.resolveOk = false ∨ d.connectOk = false ∨ ∃ e, d.listing = .error e) →
        refresh_one dec d = .statisticsReceived d.addr [] true)
    ∧ (∀ (d : DeviceSpec) (items : List Item),
        d.resolveOk = true → d.connectOk = true → d.listing = .ok items →
        refresh_one dec d =
          .statisticsReceived d.addr (MikroTikRouter.get_statistics dec items).1 false)
    ∧ (get_statistics dec roster).count StatEvent.statisticsFinished = 1
    ∧ (get_statistics dec roster).getLast? = some StatEvent.statisticsFinished := by
  have hmap : get_statistics dec roster =
      roster.map (refresh_one dec) ++ [StatEvent.statisticsFinished] := by
    rw [get_statistics, foldl_emit_eq_map]
    simp
  refine ⟨hmap, ?_, ?_, ?_, ?_⟩
  · intro d hfail
    rcases hfail with h | h | ⟨e, h⟩
    · simp [refresh_one, h]
    · simp [refresh_one, h]
    · simp [refresh_one, h, ite_self]
  · intro d items h1 h2 h3
    simp [refresh_one, h1, h2, h3]
  · rw [hmap, List.count_append]
    have h0 : (roster.map (refresh_one dec)).count StatEvent.statisticsFinished = 0 := by
      rw [List.count_eq_zero]
      intro hmem
      rcases List.mem_map.mp hmem with ⟨d, _, hd⟩
      exact refresh_one_ne_finished dec d hd
    rw [h0]
    rfl
  · rw [hmap, List.getLast?_concat]

/-- C7 witness: a two-device roster — one healthy, one failing credential
resolution — through the theorem. -/
theorem c7_refresh_cycle_witness :
    refresh_one (fun s => s) ⟨"10.0.0.2", false, true, Except.ok []⟩ =
        StatEvent.statisticsReceived "10.0.0.2" [] true
    ∧ refresh_one (fun s => s)
        ⟨"10.0.0.1", true, true,
          Except.ok [⟨"accept", "false", "", some "AA:BB:CC:DD:EE:FF", none⟩]⟩ =
        StatEvent.statisticsReceived "10.0.0.1"
          (MikroTikRouter.get_statistics (fun s => s)
            [⟨"accept", "false", "", some "AA:BB:CC:DD:EE:FF", none⟩]).1 false
    ∧ (get_statistics (fun s => s)
        [⟨"10.0.0.1", true, true,
           Except.ok [⟨"accept", "false", "", some "AA:BB:CC:DD:EE:FF", none⟩]⟩,
         ⟨"10.0.0.2", false, true, Except.ok []⟩]).count
        StatEvent.statisticsFinished = 1 :=
  ⟨(c7_refresh_cycle_isolated_single_finish (fun s => s) []).2.1
      ⟨"10.0.0.2", false, true, Except.ok []⟩ (Or.inl rfl),
   (c7_refresh_cycle_isolated_single_finish (fun s => s) []).2.2.1
      ⟨"10.0.0.1", true, true,
        Except.ok [⟨"accept", "false", "", some "AA:BB:CC:DD:EE:FF", none⟩]⟩
      [⟨"accept", "false", "", some "AA:BB:CC:DD:EE:FF", none⟩] rfl rfl rfl,
   (c7_refresh_cycle_isolated_single_finish (fun s => s)
      [⟨"10.0.0.1", true, true,
         Except.ok [⟨"accept", "false", "", some "AA:BB:CC:DD:EE:FF", none⟩]⟩,
       ⟨"10.0.0.2", false, true, Except.ok []⟩]).2.2.2.1⟩

end Routers

namespace Routers

/-- C2: the fallback-create path of `Routers.change_filter_state` is
broken.  On a device where the key is absent, `enable_filter` returns
`None` (falsy), the fallback branch computes the disabled flag and calls
`router.add_filter(mac_address, target, comment, state)` — four
arguments to a three-argument method — so a `TypeError` is raised before
any wire command: no rule is created on the device, and the `except`
block emits `filter_added` with disabled `"-"` (the key is absent from
the statistics), not the requested new state `"false"`.  Only the "no
exception reaches the caller" part of the claim holds (the `except`
swallows the `TypeError`).  Evaluated at an empty device with
`state = "enable"`. -/
theorem c2_fallback_add_raises_typeerror_bug :
    change_filter_state (fun s => s) "192.168.1.1" []
        "AA:BB:CC:DD:EE:FF" "SRC" "c" "enable" =
      ([], [⟨"192.168.1.1", "AA:BB:CC:DD:EE:FF", "SRC", "c", "-"⟩], false)
    ∧ stateDisabledMap "enable" = "false"
    ∧ ("-" : String) ≠ "false" :=
  ⟨rfl, rfl, by decide⟩

/-- C8: after `Routers.add_filter_to_router` completes (append of an
accept rule, then relocation before the first drop-action rule when one
exists), the new rule sits exactly at the first drop rule's old
position, so its index is strictly below the index of every drop-action
rule that existed before the call (each of which moved one slot up);
with no pre-existing drop rule the new rule stays appended at the end.
Hypotheses: the MAC is already normalized (upper-case, no slash — the
form the driver's own listing produces) and the target is `SRC` or
`DST`, so that the appended rule is found again by
`get_indices_of_filter`. -/
theorem c8_new_rule_before_first_drop
    (dec : String → String) (items : List Item) (mac target comment : String)
    (hup : pyUpper mac = mac)
    (hsl : splitSlashHead (mac ++ "/FF:FF:FF:FF:FF:FF") = mac)
    (htgt : target = "SRC" ∨ target = "DST") :
    (add_filter_to_router dec items mac target comment).2 = true
    ∧ ((MikroTikRouter.get_indices_of_drop_filters
          (MikroTikRouter.get_total_statistics dec items)).head? = none →
        (add_filter_to_router dec items mac target comment).1 =
          items ++ [MikroTikRouter.add_filter_item mac target comment])
    ∧ (∀ d, (MikroTikRouter.get_indices_of_drop_filters
          (MikroTikRouter.get_total_statistics dec items)).head? = some d →
        (add_filter_to_router dec items mac target comment).1 =
          items.take d ++
            MikroTikRouter.add_filter_item mac target comment :: items.drop d
        ∧ ∀ j (hj : j < items.length), (items.get ⟨j, hj⟩).action = "drop" →
            d < j + 1 ∧
            (add_filter_to_router dec items mac target comment).1[j + 1]? =
              some (items.get ⟨j, hj⟩)) := by
  have hmatch : MikroTikRouter.matchesKey
      (MikroTikRouter.toFilterData dec
        (MikroTikRouter.add_filter_item mac target comment)) mac target = true := by
    rcases htgt with rfl | rfl
    · have h1 : MikroTikRouter.toFilterData dec
          (MikroTikRouter.add_filter_item mac "SRC" comment) =
          { action := "accept", disabled := "false",
            comment := dec (MikroTikRouter.encode_text comment),
            mac := pyUpper (splitSlashHead (mac ++ "/FF:FF:FF:FF:FF:FF")),
            target := "SRC" } := rfl
      rw [h1, hsl, hup]
      simp [MikroTikRouter.matchesKey]
    · have h1 : MikroTikRouter.toFilterData dec
          (MikroTikRouter.add_filter_item mac "DST" comment) =
          { action := "accept", disabled := "false",
            comment := dec (MikroTikRouter.encode_text comment),
            mac := pyUpper (splitSlashHead (mac ++ "/FF:FF:FF:FF:FF:FF")),
            target := "DST" } := rfl
      rw [h1, hsl, hup]
      simp [MikroTikRouter.matchesKey]
  have hstats1 : MikroTikRouter.get_total_statistics dec
      (MikroTikRouter.add_filter items mac target comment) =
      MikroTikRouter.get_total_statistics dec items ++
        [MikroTikRouter.toFilterData dec
          (MikroTikRouter.add_filter_item mac target comment)] := by
    simp [MikroTikRouter.add_filter, MikroTikRouter.get_total_statistics]
  have hlen0 : (MikroTikRouter.get_total_statistics dec items).length = items.length := by
    simp [MikroTikRouter.get_total_statistics]
  have hfi : (MikroTikRouter.get_indices_of_filter
      (MikroTikRouter.get_total_statistics dec
        (MikroTikRouter.add_filter items mac target comment)) mac target).getLast? =
      some items.length := by
    rw [hstats1, MikroTikRouter.get_indices_of_filter, loopIndices_append_singleton,
      if_pos hmatch, hlen0]
    exact List.getLast?_concat _
  have hdropsame : MikroTikRouter.get_indices_of_drop_filters
      (MikroTikRouter.get_total_statistics dec
        (MikroTikRouter.add_filter items mac target comment)) =
      MikroTikRouter.get_indices_of_drop_filters
        (MikroTikRouter.get_total_statistics dec items) := by
    rw [hstats1, MikroTikRouter.get_indices_of_drop_filters,
      MikroTikRouter.get_indices_of_drop_filters, loopIndices_append_singleton]
    have hacc : ((MikroTikRouter.toFilterData dec
        (MikroTikRouter.add_filter_item mac target comment)).action == "drop") = false := rfl
    simp [hacc]
  have hdropitems : MikroTikRouter.get_indices_of_drop_filters
      (MikroTikRouter.get_total_statistics dec items) =
      loopIndices (fun it : Item => it.action == "drop") 0 items := by
    rw [MikroTikRouter.get_indices_of_drop_filters,
      MikroTikRouter.get_total_statistics, loopIndices_map]
    rfl
  have hres : add_filter_to_router dec items mac target comment =
      match (MikroTikRouter.get_indices_of_drop_filters
          (MikroTikRouter.get_total_statistics dec items)).head? with
      | some d => (MikroTikRouter.move_filter
          (items ++ [MikroTikRouter.add_filter_item mac target comment])
          items.length d, true)
      | none => (items ++ [MikroTikRouter.add_filter_item mac target comment], true) := by
    rw [add_filter_to_router, hfi, hdropsame]
    rfl
  refine ⟨?_, ?_, ?_⟩
  · rw [hres]
    cases hdh : (MikroTikRouter.get_indices_of_drop_filters
        (MikroTikRouter.get_total_statistics dec items)).head? <;> rfl
  · intro hnone
    rw [hres, hnone]
  · intro d hd
    obtain ⟨tl, hl⟩ : ∃ tl, loopIndices (fun it : Item => it.action == "drop") 0 items =
        d :: tl := by
      rcases hcase : loopIndices (fun it : Item => it.action == "drop") 0 items with
        _ | ⟨x, tl⟩
      · rw [hdropitems, hcase] at hd
        simp at hd
      · rw [hdropitems, hcase] at hd
        simp only [List.head?_cons, Option.some.injEq] at hd
        exact ⟨tl, by rw [hd]⟩
    have hd_lt : d < items.length :=
      loopIndices_lt_length _ items (by rw [hl]; exact List.mem_cons_self _ _)
    have hmin : ∀ j (hj : j < items.length), (items.get ⟨j, hj⟩).action = "drop" →
        d ≤ j := by
      intro j hj hja
      have hjmem : j ∈ loopIndices (fun it : Item => it.action == "drop") 0 items :=
        (mem_loopIndices _ items j).mpr ⟨hj, by
          have hja' := hja
          simp only [List.get_eq_getElem] at hja'
          simp [hja']⟩
      rw [hl] at hjmem
      rcases List.mem_cons.mp hjmem with heq | hmem
      · exact heq.symm.le
      · have hpw := loopIndices_pairwise_lt (fun it : Item => it.action == "drop") items
        rw [hl] at hpw
        exact Nat.le_of_lt (List.rel_of_pairwise_cons hpw hmem)
    have hmove : MikroTikRouter.move_filter
        (items ++ [MikroTikRouter.add_filter_item mac target comment]) items.length d =
        items.take d ++
          MikroTikRouter.add_filter_item mac target comment :: items.drop d := by
      rw [MikroTikRouter.move_filter]
      simp only [List.getElem?_concat_length]
      rw [if_neg (by omega : ¬ items.length < d),
        List.eraseIdx_append_of_length_le (Nat.le_refl items.length), Nat.sub_self,
        List.eraseIdx_cons_zero, List.append_nil,
        insertIdx_eq_take_cons_drop d _ items (Nat.le_of_lt hd_lt)]
    have hres1 : (add_filter_to_router dec items mac target comment).1 =
        items.take d ++
          MikroTikRouter.add_filter_item mac target comment :: items.drop d := by
      rw [hres, hd]
      exact hmove
    refine ⟨hres1, ?_⟩
    intro j hj hja
    have hdj : d ≤ j := hmin j hj hja
    refine ⟨by omega, ?_⟩
    rw [hres1]
    have htl : (items.take d).length = d := by
      rw [List.length_take]
      omega
    rw [List.getElem?_append, htl, if_neg (by omega : ¬ j + 1 < d)]
    have hidx : j + 1 - d = (j - d) + 1 := by omega
    rw [hidx, List.getElem?_cons_succ, List.getElem?_drop]
    have hsum : d + (j - d) = j := by omega
    rw [hsum, List.getElem?_eq_getElem hj]
    simp [List.get_eq_getElem]

/-- C8 witness: the theorem on a device with `[0]=accept, [1]=drop` —
the new rule ends at index 1 and the old drop rule at index 2. -/
theorem c8_new_rule_before_first_drop_witness :
    (add_filter_to_router (fun s => s)
        [⟨"accept", "false", "", some "11:22:33:44:55:66", none⟩,
         ⟨"drop", "false", "", none, none⟩]
        "AA:BB:CC:DD:EE:FF" "SRC" "c").2 = true
    ∧ (add_filter_to_router (fun s => s)
        [⟨"accept", "false", "", some "11:22:33:44:55:66", none⟩,
         ⟨"drop", "false", "", none, none⟩]
        "AA:BB:CC:DD:EE:FF" "SRC" "c").1 =
      [⟨"accept", "false", "", some "11:22:33:44:55:66", none⟩,
       ⟨"drop", "false", "", none, none⟩].take 1 ++
        MikroTikRouter.add_filter_item "AA:BB:CC:DD:EE:FF" "SRC" "c" ::
          [⟨"accept", "false", "", some "11:22:33:44:55:66", none⟩,
           ⟨"drop", "false", "", none, none⟩].drop 1
    ∧ (add_filter_to_router (fun s => s)
        [⟨"accept", "false", "", some "11:22:33:44:55:66", none⟩,
         ⟨"drop", "false", "", none, none⟩]
        "AA:BB:CC:DD:EE:FF" "SRC" "c").1[2]? =
      some ⟨"drop", "false", "", none, none⟩ :=
  ⟨(c8_new_rule_before_first_drop (fun s => s)
      [⟨"accept", "false", "", some "11:22:33:44:55:66", none⟩,
       ⟨"drop", "false", "", none, none⟩]
      "AA:BB:CC:DD:EE:FF" "SRC" "c" rfl rfl (Or.inl rfl)).1,
   ((c8_new_rule_before_first_drop (fun s => s)
      [⟨"accept", "false", "", some "11:22:33:44:55:66", none⟩,
       ⟨"drop", "false", "", none, none⟩]
      "AA:BB:CC:DD:EE:FF" "SRC" "c" rfl rfl (Or.inl rfl)).2.2 1 rfl).1,
   (((c8_new_rule_before_first_drop (fun s => s)
      [⟨"accept", "false", "", some "11:22:33:44:55:66", none⟩,
       ⟨"drop", "false", "", none, none⟩]
      "AA:BB:CC:DD:EE:FF" "SRC" "c" rfl rfl (Or.inl rfl)).2.2 1 rfl).2 1
      (by decide) rfl).2⟩

end Routers

end Mikrotik
